import Mathlib

/-!
Verification of the Hoverhover service-virtualization proxy core.

The Go sources are shallowly embedded: Go maps (`map[string]string`,
`map[string][]string`) become association lists with first-occurrence
lookup, `reflect.DeepEqual` on them becomes extensional map equality,
`strconv.Itoa`/`strconv.Atoi` become executable decimal render/parse
functions, and fallible Go code returns `Except`/`Option`.
-/

namespace Hoverhover

/-! ## Go primitives: string maps, headers, strconv -/

/-- Go `map[string]string`, as an association list; lookup takes the first
occurrence of a key, mirroring a map in which keys are unique. -/
abbrev StrMap := List (String × String)

/-- Go `map[string][]string` (`http.Header`). -/
abbrev Headers := List (String × List String)

def mapGet? (m : StrMap) (k : String) : Option String :=
  (m.find? (fun e => e.1 == k)).map (·.2)

/-- Reading a missing key from a Go map yields the zero value `""`. -/
def mapGet (m : StrMap) (k : String) : String :=
  (mapGet? m k).getD ""

/-- Go map assignment `m[k] = v`: replace the binding in place, or append. -/
def mapSet (m : StrMap) (k v : String) : StrMap :=
  if (m.find? (fun e => e.1 == k)).isSome then
    m.map (fun e => if e.1 == k then (k, v) else e)
  else
    m ++ [(k, v)]

def headersGet? (h : Headers) (k : String) : Option (List String) :=
  (h.find? (fun e => e.1 == k)).map (·.2)

/-- One direction of extensional map equality: every key of `a` is bound
to the same value in `b`. -/
def mapSubEq (a b : StrMap) : Bool :=
  (a.map (·.1)).all (fun k => mapGet? a k == mapGet? b k)

/-- `reflect.DeepEqual` on two non-nil Go `map[string]string` values:
equality as key-value functions, regardless of representation order. -/
def mapEq (a b : StrMap) : Bool :=
  mapSubEq a b && mapSubEq b a

def headersSubEq (a b : Headers) : Bool :=
  (a.map (·.1)).all (fun k => headersGet? a k == headersGet? b k)

/-- `reflect.DeepEqual` on two non-nil Go `map[string][]string` values. -/
def headersEq (a b : Headers) : Bool :=
  headersSubEq a b && headersSubEq b a

/-- `reflect.DeepEqual` on a possibly-nil map field (`none` is Go `nil`,
which is distinct from an empty map). -/
def optMapEq : Option StrMap → Option StrMap → Bool
  | none, none => true
  | some a, some b => mapEq a b
  | _, _ => false

def optHeadersEq : Option Headers → Option Headers → Bool
  | none, none => true
  | some a, some b => headersEq a b
  | _, _ => false

/-- Little-endian decimal digits, structurally recursive on a fuel bound
so that the kernel can evaluate it. -/
def natDigitsRevAux : Nat → Nat → List Nat
  | 0, _ => []
  | fuel + 1, n => if n < 10 then [n] else n % 10 :: natDigitsRevAux fuel (n / 10)

/-- Little-endian decimal digits of a natural number, least significant first. -/
def natDigitsRev (n : Nat) : List Nat := natDigitsRevAux (n + 1) n

def digitChar (d : Nat) : Char := Char.ofNat (48 + d)

/-- `strconv.Itoa` on a non-negative value. -/
def goItoaNat (n : Nat) : String :=
  ⟨((natDigitsRev n).reverse.map digitChar)⟩

/-- Model of Go `strconv.Itoa`. -/
def goItoa (i : Int) : String :=
  if i < 0 then "-" ++ goItoaNat i.natAbs else goItoaNat i.toNat

def parseDigitsAux : List Char → Nat → Option Nat
  | [], acc => some acc
  | c :: cs, acc =>
    if '0' ≤ c ∧ c ≤ '9' then parseDigitsAux cs (acc * 10 + (c.toNat - 48))
    else none

def parseDigits (cs : List Char) : Option Nat :=
  if cs.isEmpty then none else parseDigitsAux cs 0

def goAtoiAux : List Char → Int
  | [] => 0
  | c :: cs =>
    if c = '-' then ((parseDigits cs).map (fun k => -(k : Int))).getD 0
    else if c = '+' then ((parseDigits cs).map (fun k => (k : Int))).getD 0
    else ((parseDigits (c :: cs)).map (fun k => (k : Int))).getD 0

/-- Model of Go `strconv.Atoi` as the callers in `simulation.go` use it:
an optional sign followed by decimal digits; the error result is
discarded by the caller, so a failed parse contributes the zero value. -/
def goAtoi (s : String) : Int := goAtoiAux s.data

/-- Valid characters of a MIME header token, per Go `net/textproto`. -/
def validHeaderFieldChar (c : Char) : Bool :=
  c.isAlphanum ||
    c = '!' || c = '#' || c = '$' || c = '%' || c = '&' || c = '\x27' ||
    c = '*' || c = '+' || c = '-' || c = '.' || c = '^' || c = '_' ||
    c = '\x60' || c = '|' || c = '~'

def canonicalChars : List Char → Bool → List Char
  | [], _ => []
  | c :: cs, upper =>
    let c' := if upper then c.toUpper else c.toLower
    c' :: canonicalChars cs (c = '-')

/-- Go `textproto.CanonicalMIMEHeaderKey`: uppercase the first letter and
every letter following a dash, lowercase the rest; keys holding an invalid
byte are left unchanged. -/
def canonicalMIMEHeaderKey (s : String) : String :=
  if s.data.all validHeaderFieldChar then ⟨canonicalChars s.data true⟩ else s

/-- Go `http.Header.Set`: canonicalize the key and bind it to the single
value `v`. -/
def headerSet (h : Headers) (k v : String) : Headers :=
  let ck := canonicalMIMEHeaderKey k
  if (h.find? (fun e => e.1 == ck)).isSome then
    h.map (fun e => if e.1 == ck then (ck, [v]) else e)
  else
    h ++ [(ck, [v])]

/-! ## Data model -/

/-- Modelled from the spec: `models.RequestDetails` (§3) — the struct
definition is not under `src/`; field set as the spec lists it and as the
tests use it. -/
structure RequestDetails where
  Path : String
  Method : String
  Destination : String
  Scheme : String
  Query : String
  Body : String
  Headers : Headers
deriving DecidableEq

/-- Modelled from the spec: `models.ResponseDetails` (§3) — the struct
definition is not under `src/`. `TransitionsState = none` is a Go nil map. -/
structure ResponseDetails where
  Status : Int
  Body : String
  EncodedBody : Bool
  Headers : Headers
  Templated : Bool
  TransitionsState : Option StrMap
  FixedDelay : Option Int
deriving DecidableEq

/-- Modelled from the spec: the per-field matcher set of `RequestMatcher`
(§3): each field may carry any of the nine matcher kinds. -/
structure RequestFieldMatchers where
  ExactMatch : Option String
  GlobMatch : Option String
  RegexMatch : Option String
  XmlMatch : Option String
  XmlTemplatedMatch : Option String
  JsonMatch : Option String
  JsonPartialMatch : Option String
  JsonPathMatch : Option String
  XpathMatch : Option String
deriving DecidableEq

/-- Modelled from the spec: `models.RequestMatcher` (§3) — the struct
definition is not under `src/`; per-field matchers plus `requiresState`. -/
structure RequestMatcher where
  Path : Option RequestFieldMatchers
  Method : Option RequestFieldMatchers
  Destination : Option RequestFieldMatchers
  Scheme : Option RequestFieldMatchers
  Query : Option RequestFieldMatchers
  Body : Option RequestFieldMatchers
  Headers : Option Headers
  RequiresState : Option StrMap

/-- `models.RequestMatcherResponsePair` as stored by `Simulation`
(`src/core/models/simulation.go`). -/
structure RequestMatcherResponsePair where
  RequestMatcher : RequestMatcher
  Response : ResponseDetails

/-- `models.Payload` as used by the middleware executor and its tests. -/
structure Payload where
  Response : ResponseDetails
  Request : RequestDetails
deriving DecidableEq

/-- `reflect.DeepEqual` on `RequestMatcher` values: pointer-carrying scalar
fields compare structurally, the two map fields compare extensionally, and
a nil map differs from an empty one. -/
def requestMatcherDeepEqual (a b : RequestMatcher) : Bool :=
  decide (a.Path = b.Path) && decide (a.Method = b.Method) &&
  decide (a.Destination = b.Destination) && decide (a.Scheme = b.Scheme) &&
  decide (a.Query = b.Query) && decide (a.Body = b.Body) &&
  optHeadersEq a.Headers b.Headers && optMapEq a.RequiresState b.RequiresState

/-! ## `src/core/models/simulation.go` -/

/-- `Simulation.AddPair`: scan the saved pairs for a `reflect.DeepEqual`
duplicate of the new pair's `RequestMatcher`; append only when none is
found. -/
def addPair (sim : List RequestMatcherResponsePair) (pair : RequestMatcherResponsePair) :
    List RequestMatcherResponsePair :=
  if sim.any (fun savedPair => requestMatcherDeepEqual pair.RequestMatcher savedPair.RequestMatcher)
  then sim
  else sim ++ [pair]

/-- `pairNoState` / `savedPairNoState` in `AddPairInSequence`: the matcher
with its `RequiresState` cleared before the duplicate comparison. -/
def eraseRequiresState (m : RequestMatcher) : RequestMatcher :=
  { m with RequiresState := none }

/-- The `sequence` bookkeeping applied to one saved duplicate pair inside
the `AddPairInSequence` loop: current and next sequence-state strings. -/
def stepSeq (requires : Option StrMap) : String × String :=
  let s := mapGet (requires.getD []) "sequence"
  if s = "" then ("1", "2")
  else (s, goItoa (goAtoi s + 1))

/-- `Simulation.AddPairInSequence`: every saved pair whose matcher equals
the new pair's (ignoring `RequiresState`) gets `requiresState.sequence`
pinned and `transitionsState.sequence` bumped; when the current sequence
state is empty the simulation state map gains `sequence = "1"`; the new
pair is appended with `requiresState.sequence = counter + 1` when any
duplicate was counted. Returns the updated pair list and state map. -/
def addPairInSequence (sim : List RequestMatcherResponsePair)
    (pair : RequestMatcherResponsePair) (st : StrMap) :
    List RequestMatcherResponsePair × StrMap :=
  let isDup : RequestMatcherResponsePair → Bool := fun savedPair =>
    requestMatcherDeepEqual (eraseRequiresState pair.RequestMatcher)
      (eraseRequiresState savedPair.RequestMatcher)
  let counter := (sim.filter isDup).length
  let updated := sim.map (fun savedPair =>
    if isDup savedPair then
      let sn := stepSeq savedPair.RequestMatcher.RequiresState
      { savedPair with
        RequestMatcher := { savedPair.RequestMatcher with
          RequiresState := some (mapSet (savedPair.RequestMatcher.RequiresState.getD []) "sequence" sn.1) }
        Response := { savedPair.Response with
          TransitionsState := some (mapSet (savedPair.Response.TransitionsState.getD []) "sequence" sn.2) } }
    else savedPair)
  let st' :=
    if sim.any (fun savedPair =>
        isDup savedPair && (mapGet (savedPair.RequestMatcher.RequiresState.getD []) "sequence" == ""))
    then mapSet st "sequence" "1" else st
  let pair' :=
    if counter ≠ 0 then
      { pair with RequestMatcher := { pair.RequestMatcher with
          RequiresState := some (mapSet (pair.RequestMatcher.RequiresState.getD []) "sequence"
            (goItoa ((counter : Int) + 1))) } }
    else pair
  (updated ++ [pair'], st')

/-! ## `src/authentication/backends/storage_backend.go` -/

/-- The persistent store a `BoltAuth` would delete from; a delete that
ran would remove the key from this association list. -/
abbrev BoltDB := List (List Nat × List Nat)

/-- `BoltAuth.Delete`: the body is literally `return b.Delete(key)`, a
call to the very method being defined.  The recursion is embedded with
explicit fuel; `none` is divergence (the call has not terminated within
`fuel` recursive invocations), `some` would be a normal return carrying
the possibly-updated database. -/
def boltAuthDelete (fuel : Nat) (key : List Nat) (db : BoltDB) :
    Option (Except String BoltDB) :=
  match fuel with
  | 0 => none
  | fuel + 1 => boltAuthDelete fuel key db

/-! ## `src/unnamed/part_001` (package `hoverfly`) -/

/-- Redirect policy of an embedded `http.Client`; `useLastResponse` is a
`CheckRedirect` hook that always returns `http.ErrUseLastResponse`. -/
inductive RedirectPolicy where
  | followRedirects
  | useLastResponse
deriving DecidableEq

structure TLSClientConfig where
  InsecureSkipVerify : Bool
deriving DecidableEq

structure HTTPClient where
  CheckRedirect : RedirectPolicy
  Proxy : Option String
  TLSClientConfig : TLSClientConfig
deriving DecidableEq

/-- `GetDefaultHoverflyHTTPClient`: proxy from the upstream-proxy URL when
non-empty, `CheckRedirect` returning `ErrUseLastResponse`, and a TLS
config whose `InsecureSkipVerify` is set to `tlsVerification` itself. -/
def getDefaultHoverflyHTTPClient (tlsVerification : Bool) (upstreamProxy : String) : HTTPClient :=
  { CheckRedirect := .useLastResponse
    Proxy := if upstreamProxy = "" then none else some upstreamProxy
    TLSClientConfig := { InsecureSkipVerify := tlsVerification } }

/-- An HTTP response as the proxy handles it: status, headers, body. -/
structure HttpResponse where
  StatusCode : Int
  Header : Headers
  Body : String
deriving DecidableEq

/-- `Hoverfly.DoRequest`: forward the request upstream; on transport error
propagate the error, on success stamp `Hoverfly: Was-Here` (via
`Header.Set("hoverfly", "Was-Here")`, whose key is canonicalized) onto the
upstream response. The upstream outcome is the first argument. -/
def doRequest (upstream : Except String HttpResponse) : Except String HttpResponse :=
  match upstream with
  | .error e => .error e
  | .ok resp => .ok { resp with Header := headerSet resp.Header "hoverfly" "Was-Here" }

/-- `matching.MatchingError` as returned by `Hoverfly.GetResponse`. -/
structure MatchingError where
  StatusCode : Int
  Description : String
deriving DecidableEq

/-- Modelled from the spec: the Simulate cache's insert/lookup contract
(§1, §4.2) — `cache.Cache` and `matching.CacheMatcher` are not under
`src/`. The cache is a key-value store from request to response. -/
abbrev RequestCache := List (RequestDetails × ResponseDetails)

def cacheLookup (cache : RequestCache) (r : RequestDetails) : Option ResponseDetails :=
  (cache.find? (fun e => e.1 == r)).map (·.2)

def cacheSave (cache : RequestCache) (r : RequestDetails) (resp : ResponseDetails) : RequestCache :=
  cache ++ [(r, resp)]

/-- `Hoverfly.GetResponse`: serve from the cache on a hit; otherwise ask
the template matcher (its outcome is the `matchResult` argument, since
`matching.TemplateMatcher` is not under `src/`); on a matcher miss return
a `MatchingError` with status 412, otherwise save the matched response to
the cache and return it. -/
def getResponse (cache : RequestCache) (matchResult : Option ResponseDetails)
    (requestDetails : RequestDetails) :
    (Except MatchingError ResponseDetails) × RequestCache :=
  match cacheLookup cache requestDetails with
  | some cachedResponse => (.ok cachedResponse, cache)
  | none =>
    match matchResult with
    | none =>
      (.error { StatusCode := 412
                Description := "Could not find recorded request, please record it first!" },
       cache)
    | some response => (.ok response, cacheSave cache requestDetails response)

/-- Modelled from the spec: one entry of the response-delay list (§3
`DelayRule`, §4.4) — `models.ResponseDelayList` is not under `src/`. The
compiled `urlPattern` regex is abstracted as a predicate on the string it
is matched against. -/
structure ResponseDelay where
  UrlPattern : String → Bool
  HttpMethod : String
  DelayMs : Nat

/-- Modelled from the spec: the string a delay rule's pattern is matched
against (§4.4) — `method + " " + scheme + "://" + destination + path +
"?" + query`, with the method prefix omitted when the rule carries no
method. -/
def delayTarget (withMethod : Bool) (r : RequestDetails) : String :=
  (if withMethod then r.Method ++ " " else "") ++
    r.Scheme ++ "://" ++ r.Destination ++ r.Path ++ "?" ++ r.Query

/-- Modelled from the spec: whether one delay rule fires for a request
(§4.4) — a rule with a non-empty `httpMethod` additionally requires
method equality. -/
def delayRuleMatches (d : ResponseDelay) (r : RequestDetails) : Bool :=
  if d.HttpMethod = "" then d.UrlPattern (delayTarget false r)
  else d.HttpMethod == r.Method && d.UrlPattern (delayTarget true r)

/-- Modelled from the spec: `ResponseDelays.GetDelay` (§4.4) — the first
rule in insertion order that fires. -/
def getDelay (delays : List ResponseDelay) (r : RequestDetails) : Option ResponseDelay :=
  delays.find? (fun d => delayRuleMatches d r)

/-- `modes.Capture`, the capture-mode name. -/
def captureModeName : String := "capture"

/-- `modes.ErrorResponse` for an uninterpretable request, as built at the
top of `processRequest`; only the fields the claims inspect are kept. -/
def couldNotInterpretResponse : HttpResponse :=
  { StatusCode := 502, Header := [], Body := "Could not interpret HTTP request" }

/-- `Hoverfly.processRequest`: on a request-parse failure return the error
response; otherwise run the active mode's `Process` (its outcome is the
`processResult` argument) and, unless it errored or the mode is Capture,
look up the first matching response delay and sleep for it.  The second
component is the milliseconds slept. -/
def processRequest (parsed : Option RequestDetails) (mode : String)
    (processResult : HttpResponse × Bool) (delays : List ResponseDelay) :
    HttpResponse × Nat :=
  match parsed with
  | none => (couldNotInterpretResponse, 0)
  | some requestDetails =>
    let response := processResult.1
    let errored := processResult.2
    if errored || mode == captureModeName then (response, 0)
    else
      match getDelay delays requestDetails with
      | none => (response, 0)
      | some d => (response, d.DelayMs)

/-! ## `src/core/matching/request_template_store.go` -/

/-- `matching.RequestTemplate`. -/
structure RequestTemplate where
  Path : String
  Method : String
  Destination : String
  Scheme : String
  Query : String
  Body : String
  Headers : Headers
deriving DecidableEq

/-- `matching.RequestTemplatePayload`. -/
structure RequestTemplatePayload where
  RequestTemplate : RequestTemplate
  Response : ResponseDetails
deriving DecidableEq

/-- `headerMatch`: walk the template headers; each name must be present,
verbatim, as a key of the request headers (a plain Go map index, no
canonicalization), with the first value under that name equal to the
template's first value.  The short-circuit `ok && headerVal[0] ==
reqHeaderVal[0]` indexes element 0 of both slices only after the key
lookup succeeds, so when the key is present and either value slice is
empty the program panics on the out-of-range index; `none` embeds that
panic.  A missing key returns `false` before any indexing. -/
def headerMatch : Headers → Headers → Option Bool
  | [], _ => some true
  | e :: rest, reqHeaders =>
    match headersGet? reqHeaders e.1 with
    | some reqHeaderVal =>
      match e.2.head?, reqHeaderVal.head? with
      | some v, some r =>
        if v = r then headerMatch rest reqHeaders else some false
      | _, _ => none
    | none => some false

/-- `RequestTemplateStore.GetPayload`: return the first template whose
headers match the request's, propagating a `headerMatch` panic;
otherwise the error `"No match found"`. -/
def getPayloadFromStore : List RequestTemplatePayload → Headers →
    Option (Except String ResponseDetails)
  | [], _ => some (.error "No match found")
  | entry :: rest, reqHeaders =>
    match headerMatch entry.RequestTemplate.Headers reqHeaders with
    | none => none
    | some true => some (.ok entry.Response)
    | some false => getPayloadFromStore rest reqHeaders

/-! ## Schema negotiation (`v2.NewSimulationViewFromResponseBody`) -/

/-- The `meta` object of a simulation-import payload. -/
structure MetaView where
  SchemaVersion : String
  HoverflyVersion : String
  TimeExported : String
deriving DecidableEq

/-- A simulation-import payload, reduced to what schema negotiation reads:
`none` is a body that is not valid JSON; otherwise the optional `meta`
object (a JSON field absent from the document deserializes to the zero
value, so a missing `meta.schemaVersion` is the empty string). -/
abbrev ImportBody := Option (Option MetaView)

/-- Modelled from the spec: `v2.NewSimulationViewFromResponseBody` is not
under `src/` — schema negotiation per §6, with the error texts pinned by
`src/core/handlers/v2/simulation_views_test.go`: invalid JSON, missing
`meta`, missing `meta.schemaVersion`, and unsupported schema versions are
rejected; `v1`, `v2` and `v3` are accepted and upgraded to `v3`. -/
def newSimulationViewFromResponseBody : ImportBody → Except String String
  | none => .error "Invalid JSON"
  | some none => .error "Invalid JSON, missing \"meta\" object"
  | some (some meta) =>
    if meta.SchemaVersion = "" then
      .error "Invalid JSON, missing \"meta.schemaVersion\" string"
    else if meta.SchemaVersion = "v1" ∨ meta.SchemaVersion = "v2" ∨ meta.SchemaVersion = "v3" then
      .ok "v3"
    else
      .error ("Invalid simulation: schema version " ++ meta.SchemaVersion ++
        " is not supported by this version of Hoverfly, you may need to update Hoverfly")

/-! ## Remote middleware (`ExecuteMiddlewareRemotely`) -/

/-- The observable outcome of POSTing the payload to remote middleware:
a transport failure, or a reply with a status code and a body that either
parses as a payload or does not. -/
inductive RemoteMiddlewareOutcome where
  | transportFailure
  | reply (status : Int) (parsedBody : Option Payload)

/-- Modelled from the spec: `ExecuteMiddlewareRemotely` is not under
`src/` (only `src/core/middleware_test.go` is) — §4.5: a `200 OK` with a
JSON payload body replaces the payload; any other status, transport
failure, or parse failure returns the original payload and a failure
reason, with the error texts pinned by the tests. -/
def executeMiddlewareRemotely (outcome : RemoteMiddlewareOutcome) (payload : Payload) :
    Payload × Option String :=
  match outcome with
  | .transportFailure => (payload, some "Error when communicating with remote middleware")
  | .reply status parsedBody =>
    if status ≠ 200 then (payload, some "Error when communicating with remote middleware")
    else
      match parsedBody with
      | none => (payload, some "unexpected end of JSON input")
      | some newPayload => (newPayload, none)

/-! ## Serving a simulated response -/

/-- Modelled from the spec: constructing the client-facing response for a
simulation hit (§6: the proxy inserts the header `Hoverfly: Was-Here`
into every captured/returned response) — the proxy-side response
construction is not under `src/`. -/
def serveFromSimulation (response : ResponseDetails) : HttpResponse :=
  { StatusCode := response.Status
    Header := headerSet response.Headers "hoverfly" "Was-Here"
    Body := response.Body }

/-! ## Sequencing scenarios -/

/-- `n` successive `AddPairInSequence` inserts of the same pair into a
fresh simulation (`NewSimulation` starts with no pairs) whose state map
starts empty. -/
def insertPairNTimes (pair : RequestMatcherResponsePair) :
    Nat → List RequestMatcherResponsePair × StrMap
  | 0 => ([], [])
  | n + 1 =>
    let s := insertPairNTimes pair n
    addPairInSequence s.1 pair s.2

/-- A matcher whose `requiresState` is exactly `sequence = k`. -/
def withSeqRequire (m : RequestMatcher) (k : Nat) : RequestMatcher :=
  { m with RequiresState := some [("sequence", goItoaNat k)] }

/-- A response whose `transitionsState` is exactly `sequence = k`. -/
def withSeqTransition (r : ResponseDetails) (k : Nat) : ResponseDetails :=
  { r with TransitionsState := some [("sequence", goItoaNat k)] }

/-- The pair list produced by `n ≥ 2` sequenced inserts of `pair`:
pair `i` (1-based) requires `sequence = i`; every pair but the last
transitions to `sequence = i + 1`, and the last pair keeps the inserted
response untouched. -/
def seqExpected (pair : RequestMatcherResponsePair) (n : Nat) :
    List RequestMatcherResponsePair :=
  (List.range n).map (fun i =>
    { RequestMatcher := withSeqRequire pair.RequestMatcher (i + 1)
      Response :=
        if i + 2 ≤ n then withSeqTransition pair.Response (i + 2) else pair.Response })

/-! ## Concrete sample data -/

/-- A field matcher carrying a single exact match. -/
def exactFieldMatcher (v : String) : RequestFieldMatchers :=
  { ExactMatch := some v, GlobMatch := none, RegexMatch := none, XmlMatch := none
    XmlTemplatedMatch := none, JsonMatch := none, JsonPartialMatch := none
    JsonPathMatch := none, XpathMatch := none }

/-- A matcher that is exact on the destination and unset elsewhere. -/
def destinationMatcher (host : String) : RequestMatcher :=
  { Path := none, Method := none, Destination := some (exactFieldMatcher host)
    Scheme := none, Query := none, Body := none, Headers := none, RequiresState := none }

def sampleResponse : ResponseDetails :=
  { Status := 200, Body := "ok", EncodedBody := false, Headers := []
    Templated := false, TransitionsState := none, FixedDelay := none }

def samplePair : RequestMatcherResponsePair :=
  { RequestMatcher := destinationMatcher "example.com", Response := sampleResponse }

def otherPair : RequestMatcherResponsePair :=
  { RequestMatcher := destinationMatcher "other.com", Response := sampleResponse }

def sampleRequest : RequestDetails :=
  { Path := "/b", Method := "GET", Destination := "example.com"
    Scheme := "http", Query := "", Body := "", Headers := [] }

/-- A delay rule whose pattern accepts everything. -/
def sampleDelayRule : ResponseDelay :=
  { UrlPattern := fun _ => true, HttpMethod := "", DelayMs := 250 }

def sampleHttpResponse : HttpResponse :=
  { StatusCode := 200, Header := [], Body := "ok" }

def samplePayload : Payload :=
  { Response := sampleResponse, Request := sampleRequest }

/-- A one-entry template store whose template requires the header
`X-Thing: v`. -/
def sampleTemplateStore : List RequestTemplatePayload :=
  [{ RequestTemplate :=
      { Path := "", Method := "", Destination := "", Scheme := "", Query := ""
        Body := "", Headers := [("X-Thing", ["v"])] }
     Response := sampleResponse }]

/-! ## Lemmas: decimal rendering and parsing -/

theorem natDigitsRevAux_irrel (f1 : Nat) :
    ∀ f2 n, n < f1 → n < f2 → natDigitsRevAux f1 n = natDigitsRevAux f2 n := by
  induction f1 with
  | zero => intro f2 n h1 _; omega
  | succ f ih =>
    intro f2 n h1 h2
    match f2, h2 with
    | g + 1, _ =>
      simp only [natDigitsRevAux]
      by_cases h10 : n < 10
      · simp [h10]
      · simp only [h10, if_false]
        have hdiv : n / 10 < n := Nat.div_lt_self (by omega) (by omega)
        exact congrArg _ (ih g (n / 10) (by omega) (by omega))

theorem natDigitsRev_unfold (n : Nat) :
    natDigitsRev n = if n < 10 then [n] else n % 10 :: natDigitsRev (n / 10) := by
  by_cases h10 : n < 10
  · simp [natDigitsRev, natDigitsRevAux, h10]
  · have hdiv : n / 10 < n := Nat.div_lt_self (by omega) (by omega)
    simp only [natDigitsRev, natDigitsRevAux, h10, if_false]
    exact congrArg _ (natDigitsRevAux_irrel n (n / 10 + 1) (n / 10) (by omega) (by omega))

theorem natDigitsRev_ne_nil (n : Nat) : natDigitsRev n ≠ [] := by
  rw [natDigitsRev_unfold]
  by_cases h10 : n < 10 <;> simp [h10]

theorem natDigitsRev_lt_ten (n : Nat) : ∀ d ∈ natDigitsRev n, d < 10 := by
  induction n using Nat.strong_induction_on with
  | _ n ih =>
    rw [natDigitsRev_unfold]
    by_cases h10 : n < 10
    · simp [h10]
    · simp only [h10, if_false, List.mem_cons]
      rintro d (rfl | hd)
      · omega
      · exact ih (n / 10) (Nat.div_lt_self (by omega) (by omega)) d hd

theorem digitChar_is_digit {d : Nat} (h : d < 10) :
    ('0' ≤ digitChar d ∧ digitChar d ≤ '9') = True := by
  interval_cases d <;> decide

theorem digitChar_toNat {d : Nat} (h : d < 10) : (digitChar d).toNat - 48 = d := by
  interval_cases d <;> decide

theorem parseDigitsAux_append (l1 l2 : List Char) :
    ∀ acc, parseDigitsAux (l1 ++ l2) acc =
      match parseDigitsAux l1 acc with
      | some a => parseDigitsAux l2 a
      | none => none := by
  induction l1 with
  | nil => intro acc; simp [parseDigitsAux]
  | cons c cs ih =>
    intro acc
    simp only [List.cons_append, parseDigitsAux]
    by_cases hc : '0' ≤ c ∧ c ≤ '9'
    · simp only [hc, if_true]
      exact ih _
    · simp [hc]

theorem parseDigitsAux_digits (n : Nat) :
    ∀ acc, parseDigitsAux ((natDigitsRev n).reverse.map digitChar) acc =
      some (acc * 10 ^ (natDigitsRev n).length + n) := by
  induction n using Nat.strong_induction_on with
  | _ n ih =>
    intro acc
    rw [natDigitsRev_unfold]
    by_cases h10 : n < 10
    · simp only [h10, if_true, List.reverse_singleton, List.map_cons, List.map_nil,
        parseDigitsAux, digitChar_is_digit h10, if_true]
      rw [digitChar_toNat h10]
      simp [parseDigitsAux]
    · have hdiv : n / 10 < n := Nat.div_lt_self (by omega) (by omega)
      have hmod : n % 10 < 10 := by omega
      simp only [h10, if_false, List.reverse_cons, List.map_append, List.map_cons,
        List.map_nil]
      rw [parseDigitsAux_append]
      rw [ih (n / 10) hdiv acc]
      simp only [parseDigitsAux, digitChar_is_digit hmod, if_true]
      rw [digitChar_toNat hmod]
      simp only [List.length_cons]
      congr 1
      have : 10 * (n / 10) + n % 10 = n := Nat.div_add_mod n 10
      ring_nf
      omega

theorem goItoaNat_data (n : Nat) :
    (goItoaNat n).data = (natDigitsRev n).reverse.map digitChar := rfl

theorem goItoaNat_ne_empty (n : Nat) : goItoaNat n ≠ "" := by
  intro h
  have : (goItoaNat n).data = [] := by rw [h]
  rw [goItoaNat_data] at this
  simp at this
  exact natDigitsRev_ne_nil n this

theorem goAtoi_goItoaNat (n : Nat) : goAtoi (goItoaNat n) = (n : Int) := by
  have hne := natDigitsRev_ne_nil n
  obtain ⟨d, ds, hds⟩ : ∃ d ds, (natDigitsRev n).reverse = d :: ds := by
    cases hrev : (natDigitsRev n).reverse with
    | nil => exact absurd (by simpa using congrArg List.reverse hrev) hne
    | cons d ds => exact ⟨d, ds, rfl⟩
  have hd10 : d < 10 := by
    have : d ∈ (natDigitsRev n).reverse := by rw [hds]; exact List.mem_cons_self d ds
    exact natDigitsRev_lt_ten n d (List.mem_reverse.mp this)
  have hdata : (goItoaNat n).data = digitChar d :: ds.map digitChar := by
    rw [goItoaNat_data, hds, List.map_cons]
  have hparse : parseDigitsAux (digitChar d :: ds.map digitChar) 0 = some n := by
    have := parseDigitsAux_digits n 0
    rw [hds] at this
    simpa using this
  have hno_minus : digitChar d ≠ '-' := by interval_cases d <;> decide
  have hno_plus : digitChar d ≠ '+' := by interval_cases d <;> decide
  rw [goAtoi, hdata]
  simp only [goAtoiAux, hno_minus, hno_plus, if_false, parseDigits, List.isEmpty_cons,
    Bool.false_eq_true, if_false, hparse, Option.map_some, Option.getD_some]
  simp

theorem goItoa_natCast (n : Nat) : goItoa (n : Int) = goItoaNat n := by
  simp [goItoa]

theorem goItoa_atoi_succ (k : Nat) :
    goItoa (goAtoi (goItoaNat k) + 1) = goItoaNat (k + 1) := by
  rw [goAtoi_goItoaNat]
  have h : (k : Int) + 1 = ((k + 1 : Nat) : Int) := by push_cast; ring
  rw [h, goItoa_natCast]

theorem mapGet_nil (k : String) : mapGet [] k = "" := rfl

theorem mapGet_singleton (k v : String) : mapGet [(k, v)] k = v := by
  simp [mapGet, mapGet?]

theorem mapSet_nil (k v : String) : mapSet [] k v = [(k, v)] := rfl

theorem mapSet_singleton (k v w : String) : mapSet [(k, v)] k w = [(k, w)] := by
  simp [mapSet]

theorem stepSeq_none : stepSeq none = ("1", "2") := rfl

theorem stepSeq_singleton {s : String} (h : s ≠ "") :
    stepSeq (some [("sequence", s)]) = (s, goItoa (goAtoi s + 1)) := by
  simp [stepSeq, mapGet_singleton, h]

theorem stepSeq_seqValue (k : Nat) :
    stepSeq (some [("sequence", goItoaNat k)]) = (goItoaNat k, goItoaNat (k + 1)) := by
  rw [stepSeq_singleton (goItoaNat_ne_empty k), goItoa_atoi_succ]

theorem mapSubEq_refl (a : StrMap) : mapSubEq a a = true := by
  simp [mapSubEq, List.all_eq_true]

theorem mapEq_refl (a : StrMap) : mapEq a a = true := by
  simp [mapEq, mapSubEq_refl]

theorem mapEq_symm (a b : StrMap) : mapEq a b = mapEq b a := by
  simp [mapEq, Bool.and_comm]

theorem headersSubEq_refl (a : Headers) : headersSubEq a a = true := by
  simp [headersSubEq, List.all_eq_true]

theorem headersEq_refl (a : Headers) : headersEq a a = true := by
  simp [headersEq, headersSubEq_refl]

theorem headersEq_symm (a b : Headers) : headersEq a b = headersEq b a := by
  simp [headersEq, Bool.and_comm]

theorem optMapEq_refl (a : Option StrMap) : optMapEq a a = true := by
  cases a with
  | none => rfl
  | some m => simp [optMapEq, mapEq_refl]

theorem optMapEq_symm (a b : Option StrMap) : optMapEq a b = optMapEq b a := by
  cases a <;> cases b <;> simp [optMapEq, mapEq_symm]

theorem optHeadersEq_refl (a : Option Headers) : optHeadersEq a a = true := by
  cases a with
  | none => rfl
  | some m => simp [optHeadersEq, headersEq_refl]

theorem optHeadersEq_symm (a b : Option Headers) : optHeadersEq a b = optHeadersEq b a := by
  cases a <;> cases b <;> simp [optHeadersEq, headersEq_symm]

theorem decide_comm {α : Type} [DecidableEq α] (x y : α) :
    decide (x = y) = decide (y = x) :=
  decide_eq_decide.mpr eq_comm

theorem requestMatcherDeepEqual_refl (a : RequestMatcher) :
    requestMatcherDeepEqual a a = true := by
  simp [requestMatcherDeepEqual, optMapEq_refl, optHeadersEq_refl]

theorem requestMatcherDeepEqual_symm (a b : RequestMatcher) :
    requestMatcherDeepEqual a b = requestMatcherDeepEqual b a := by
  unfold requestMatcherDeepEqual
  rw [decide_comm a.Path, decide_comm a.Method, decide_comm a.Destination,
    decide_comm a.Scheme, decide_comm a.Query, decide_comm a.Body,
    optHeadersEq_symm, optMapEq_symm]

/-! ## Lemmas: headers -/

theorem find?_map_headerReplace (h : Headers) (ck v : String)
    (hfound : (h.find? (fun e => e.1 == ck)).isSome) :
    (h.map (fun e => if e.1 == ck then (ck, [v]) else e)).find? (fun e => e.1 == ck) =
      some (ck, [v]) := by
  induction h with
  | nil => simp at hfound
  | cons e es ih =>
    by_cases he : e.1 == ck
    · simp only [List.map_cons, he, if_true]
      exact List.find?_cons_of_pos _ (by simp)
    · simp only [List.map_cons, he, if_false]
      rw [List.find?_cons_of_neg _ (by simpa using he)]
      apply ih
      rw [List.find?_cons_of_neg _ (by simpa using he)] at hfound
      exact hfound

theorem headersGet?_headerSet (h : Headers) (k v : String) :
    headersGet? (headerSet h k v) (canonicalMIMEHeaderKey k) = some [v] := by
  unfold headerSet headersGet?
  by_cases hfound : (h.find? (fun e => e.1 == canonicalMIMEHeaderKey k)).isSome
  · simp only [hfound, if_true]
    rw [find?_map_headerReplace h _ v hfound]
    rfl
  · have hnone : h.find? (fun e => e.1 == canonicalMIMEHeaderKey k) = none :=
      Option.not_isSome_iff_eq_none.mp hfound
    simp only [hnone, Option.isSome_none, Bool.false_eq_true, if_false,
      List.find?_append, Option.none_or]
    rw [List.find?_cons_of_pos _ (by simp)]
    rfl

theorem canonical_hoverfly : canonicalMIMEHeaderKey "hoverfly" = "Hoverfly" := by decide

/-! ## Claim C10 -/

/-- C10: `BoltAuth.Delete` calls itself on every invocation, so for every
key, database and fuel bound the embedded recursion never returns
normally — the underlying database delete is unreachable. -/
theorem claimC10_boltAuthDelete_diverges :
    ∀ (fuel : Nat) (key : List Nat) (db : BoltDB),
      boltAuthDelete fuel key db = none := by
  intro fuel
  induction fuel with
  | zero => intro key db; rfl
  | succ f ih => intro key db; simpa [boltAuthDelete] using ih key db

/-! ## Claim C5 -/

/-- C5: evaluating `GetDefaultHoverflyHTTPClient` at the failing input
`tlsVerification = true` shows the client is configured with
`InsecureSkipVerify = true`, i.e. certificate verification is skipped
exactly when the flag enables it; the redirect half of the claim holds
(`CheckRedirect` returns `ErrUseLastResponse`). -/
theorem claimC5_tls_flag_inverted :
    (getDefaultHoverflyHTTPClient true "").TLSClientConfig.InsecureSkipVerify = true ∧
    (getDefaultHoverflyHTTPClient false "").TLSClientConfig.InsecureSkipVerify = false ∧
    (getDefaultHoverflyHTTPClient true "").CheckRedirect = RedirectPolicy.useLastResponse ∧
    (getDefaultHoverflyHTTPClient false "").CheckRedirect = RedirectPolicy.useLastResponse :=
  ⟨rfl, rfl, rfl, rfl⟩

/-! ## Claim C1 -/

/-- C1 counterexample: for the concrete request `GET http://example.com/b`
with an empty cache and a matcher miss, `GetResponse` returns a matching
error with status 412 — not 502 — and a description that does not contain
the text `Could not find a match`. -/
theorem claimC1_counterexample :
    getResponse [] none sampleRequest =
      (Except.error
        { StatusCode := 412
          Description := "Could not find recorded request, please record it first!" }, []) ∧
    (412 : Int) ≠ 502 ∧
    ¬ ("Could not find a match".data <:+:
        "Could not find recorded request, please record it first!".data) := by
  refine ⟨rfl, by decide, by decide⟩

/-- C1 (amended): in Simulate mode, for every request whose lookup misses
the cache and for which the matcher finds no matching pair, `GetResponse`
returns a `MatchingError` with status 412 and description
`Could not find recorded request, please record it first!`, leaving the
cache unchanged. -/
theorem claimC1_miss_returns_412 :
    ∀ (cache : RequestCache) (req : RequestDetails),
      cacheLookup cache req = none →
      getResponse cache none req =
        (Except.error
          { StatusCode := 412
            Description := "Could not find recorded request, please record it first!" },
         cache) := by
  intro cache req hmiss
  unfold getResponse
  rw [hmiss]

/-- C1 witness: the amended theorem applied at the empty cache and the
sample request. -/
theorem claimC1_witness :
    cacheLookup [] sampleRequest = none ∧
    getResponse [] none sampleRequest =
      (Except.error
        { StatusCode := 412
          Description := "Could not find recorded request, please record it first!" }, []) :=
  ⟨rfl, claimC1_miss_returns_412 [] sampleRequest rfl⟩

/-! ## Claim C4 -/

/-- C4 counterexample: a payload whose `meta` object is missing is
rejected with `Invalid JSON, missing "meta" object`, not with the
message the claim states. -/
theorem claimC4_counterexample :
    newSimulationViewFromResponseBody (some none) =
      Except.error "Invalid JSON, missing \"meta\" object" ∧
    ("Invalid JSON, missing \"meta\" object" : String) ≠
      "Invalid JSON, missing \"meta.schemaVersion\" string" := by
  refine ⟨rfl, by decide⟩

/-- C4 (amended): a missing `meta` object is rejected with
`Invalid JSON, missing "meta" object`; a present `meta` without a
`schemaVersion` is rejected with
`Invalid JSON, missing "meta.schemaVersion" string`; an unsupported
`schemaVersion` X is rejected with a message containing
`schema version X is not supported by this version`. -/
theorem claimC4_schema_negotiation :
    ∀ (hv te v : String),
      newSimulationViewFromResponseBody (some none) =
        Except.error "Invalid JSON, missing \"meta\" object" ∧
      newSimulationViewFromResponseBody (some (some ⟨"", hv, te⟩)) =
        Except.error "Invalid JSON, missing \"meta.schemaVersion\" string" ∧
      (v ≠ "" → v ≠ "v1" → v ≠ "v2" → v ≠ "v3" →
        newSimulationViewFromResponseBody (some (some ⟨v, hv, te⟩)) =
          Except.error ("Invalid simulation: " ++
            ("schema version " ++ v ++ " is not supported by this version") ++
            " of Hoverfly, you may need to update Hoverfly")) := by
  intro hv te v
  refine ⟨rfl, rfl, fun h0 h1 h2 h3 => ?_⟩
  simp only [newSimulationViewFromResponseBody, h0, h1, h2, h3, or_self, if_false,
    ite_false]
  congr 1
  simp only [String.append_assoc]
  rw [show ("Invalid simulation: schema version " : String) =
    "Invalid simulation: " ++ "schema version " from rfl, String.append_assoc]
  rfl

/-- C4 witness: the amended theorem applied at the unsupported schema
version `r3` from the repository's own test. -/
theorem claimC4_witness :
    newSimulationViewFromResponseBody (some (some ⟨"r3", "v0.11.0", "2017-02-23T12:43:48Z"⟩)) =
      Except.error ("Invalid simulation: " ++
        ("schema version " ++ "r3" ++ " is not supported by this version") ++
        " of Hoverfly, you may need to update Hoverfly") :=
  (claimC4_schema_negotiation "v0.11.0" "2017-02-23T12:43:48Z" "r3").2.2
    (by decide) (by decide) (by decide) (by decide)

/-! ## Claim C9 -/

/-- C9: remote middleware execution returns the original payload together
with a non-empty failure reason on a transport failure, on any non-200
status, and on a 200 reply whose body does not parse as a payload. -/
theorem claimC9_remote_middleware_failures :
    ∀ (payload : Payload) (status : Int) (parsedBody : Option Payload),
      executeMiddlewareRemotely RemoteMiddlewareOutcome.transportFailure payload =
        (payload, some "Error when communicating with remote middleware") ∧
      (status ≠ 200 →
        executeMiddlewareRemotely (RemoteMiddlewareOutcome.reply status parsedBody) payload =
          (payload, some "Error when communicating with remote middleware")) ∧
      executeMiddlewareRemotely (RemoteMiddlewareOutcome.reply 200 none) payload =
        (payload, some "unexpected end of JSON input") := by
  intro payload status parsedBody
  refine ⟨rfl, fun hs => ?_, rfl⟩
  simp [executeMiddlewareRemotely, hs]

/-- C9 witness: the theorem applied to the sample payload and the 404
reply produced by the repository's remote-middleware test server. -/
theorem claimC9_witness :
    executeMiddlewareRemotely (RemoteMiddlewareOutcome.reply 404 none) samplePayload =
      (samplePayload, some "Error when communicating with remote middleware") :=
  (claimC9_remote_middleware_failures samplePayload 404 none).2.1 (by decide)

/-! ## Claim C6 -/

/-- C6: every response the proxy hands back carries `Hoverfly: Was-Here`:
`DoRequest` stamps it onto every successful upstream response via
`Header.Set("hoverfly", "Was-Here")` (canonicalized to `Hoverfly`), and
the simulation-serving path, modelled from the spec, inserts the same
header into every simulated response. -/
theorem claimC6_was_here_header :
    (∀ resp : HttpResponse,
      doRequest (Except.ok resp) =
        Except.ok { resp with Header := headerSet resp.Header "hoverfly" "Was-Here" } ∧
      headersGet? (headerSet resp.Header "hoverfly" "Was-Here") "Hoverfly" =
        some ["Was-Here"]) ∧
    (∀ response : ResponseDetails,
      headersGet? (serveFromSimulation response).Header "Hoverfly" = some ["Was-Here"]) := by
  constructor
  · intro resp
    refine ⟨rfl, ?_⟩
    have h := headersGet?_headerSet resp.Header "hoverfly" "Was-Here"
    rwa [canonical_hoverfly] at h
  · intro response
    have h := headersGet?_headerSet response.Headers "hoverfly" "Was-Here"
    rwa [canonical_hoverfly] at h

/-! ## Claim C7 -/

/-- C7: `processRequest` applies no response delay in Capture mode; in
every other mode, when the mode's `Process` succeeds, the first delay
rule that fires for the request is applied before the response is
returned. -/
theorem claimC7_capture_skips_delay :
    ∀ (rd : RequestDetails) (resp : HttpResponse) (errored : Bool)
      (delays : List ResponseDelay) (mode : String),
      processRequest (some rd) captureModeName (resp, errored) delays = (resp, 0) ∧
      (mode ≠ captureModeName →
        ∀ (pre : List ResponseDelay) (d : ResponseDelay) (post : List ResponseDelay),
          delays = pre ++ d :: post →
          (∀ d' ∈ pre, delayRuleMatches d' rd = false) →
          delayRuleMatches d rd = true →
          processRequest (some rd) mode (resp, false) delays = (resp, d.DelayMs)) := by
  intro rd resp errored delays mode
  constructor
  · simp [processRequest]
  · intro hmode pre d post hdelays hpre hd
    have hbeq : (mode == captureModeName) = false := by
      simpa using hmode
    have hfind : List.find? (fun d' => delayRuleMatches d' rd) (pre ++ d :: post) =
        some d := by
      rw [List.find?_append,
        List.find?_eq_none.mpr (by intro d' hd'; simp [hpre d' hd']),
        Option.none_or]
      exact List.find?_cons_of_pos _ hd
    simp [processRequest, hbeq, hdelays, getDelay, hfind]

/-- C7 witness: the theorem applied in Simulate mode to a delay list whose
single rule fires, yielding its 250 ms delay, and to Capture mode where no
delay is applied. -/
theorem claimC7_witness :
    processRequest (some sampleRequest) captureModeName (sampleHttpResponse, false)
      [sampleDelayRule] = (sampleHttpResponse, 0) ∧
    processRequest (some sampleRequest) "simulate" (sampleHttpResponse, false)
      [sampleDelayRule] = (sampleHttpResponse, 250) :=
  ⟨(claimC7_capture_skips_delay sampleRequest sampleHttpResponse false
      [sampleDelayRule] "simulate").1,
   (claimC7_capture_skips_delay sampleRequest sampleHttpResponse false
      [sampleDelayRule] "simulate").2 (by decide) [] sampleDelayRule [] rfl
      (by intro d' hd'; simp at hd') rfl⟩

/-! ## Claim C8 -/

/-- C8 counterexample: with a stored template requiring header
`X-Thing: v`, the request carrying `X-Thing: v` is matched but the same
request with only the header name's case changed (`x-thing: v`) is not:
header-name comparison is a plain case-sensitive map lookup. -/
theorem claimC8_counterexample :
    getPayloadFromStore sampleTemplateStore [("X-Thing", ["v"])] =
      some (Except.ok sampleResponse) ∧
    getPayloadFromStore sampleTemplateStore [("x-thing", ["v"])] =
      some (Except.error "No match found") := by
  constructor <;> rfl

/-- C8 (amended): template-header matching is case-sensitive on the
header name: `headerMatch` succeeds exactly when every template header
name appears verbatim as a request-header key with both first values
present and equal; when a template name is present as a key but either
value slice is empty, the Go slice index panics (`none`); `GetPayload`
returns the response of the first template whose headers match,
propagating panics. -/
theorem claimC8_header_match_case_sensitive :
    ∀ (tmplHeaders reqHeaders : Headers),
      (headerMatch tmplHeaders reqHeaders = some true ↔
        ∀ e ∈ tmplHeaders, ∃ rv v r, headersGet? reqHeaders e.1 = some rv ∧
          e.2.head? = some v ∧ rv.head? = some r ∧ v = r) ∧
      (∀ (name : String) (vals : List String) (rest : Headers) (rv : List String),
        headersGet? reqHeaders name = some rv →
        vals.head? = none ∨ rv.head? = none →
        headerMatch ((name, vals) :: rest) reqHeaders = none) ∧
      (∀ (pre : List RequestTemplatePayload) (entry : RequestTemplatePayload)
          (post : List RequestTemplatePayload),
        (∀ e ∈ pre, headerMatch e.RequestTemplate.Headers reqHeaders = some false) →
        headerMatch entry.RequestTemplate.Headers reqHeaders = some true →
        getPayloadFromStore (pre ++ entry :: post) reqHeaders =
          some (Except.ok entry.Response)) := by
  intro tmplHeaders reqHeaders
  refine ⟨?_, ?_, ?_⟩
  · induction tmplHeaders with
    | nil => simp [headerMatch]
    | cons e rest ih =>
      constructor
      · intro h
        cases hg : headersGet? reqHeaders e.1 with
        | none => simp [headerMatch, hg] at h
        | some rv =>
          cases hv : e.2.head? with
          | none =>
            cases hr : rv.head? with
            | none => simp [headerMatch, hg, hv, hr] at h
            | some r => simp [headerMatch, hg, hv, hr] at h
          | some v =>
            cases hr : rv.head? with
            | none => simp [headerMatch, hg, hv, hr] at h
            | some r =>
              simp only [headerMatch, hg, hv, hr] at h
              by_cases hvr : v = r
              · rw [if_pos hvr] at h
                intro f hf
                rcases List.mem_cons.mp hf with rfl | hfr
                · exact ⟨rv, v, r, hg, hv, hr, hvr⟩
                · exact ih.mp h f hfr
              · rw [if_neg hvr] at h
                exact absurd h (by simp)
      · intro hall
        obtain ⟨rv, v, r, hg, hv, hr, hvr⟩ := hall e (List.mem_cons_self e rest)
        have hrest := ih.mpr (fun f hf => hall f (List.mem_cons_of_mem e hf))
        simp only [headerMatch, hg, hv, hr]
        rw [if_pos hvr]
        exact hrest
  · intro name vals rest rv hg hdisj
    rcases hdisj with h | h
    · cases hr : rv.head? with
      | none => simp [headerMatch, hg, h, hr]
      | some r => simp [headerMatch, hg, h, hr]
    · cases hv : vals.head? with
      | none => simp [headerMatch, hg, h, hv]
      | some v => simp [headerMatch, hg, h, hv]
  · intro pre entry post hpre hentry
    revert hpre
    induction pre with
    | nil =>
      intro _
      simp [getPayloadFromStore, hentry]
    | cons p ps ih2 =>
      intro hpre
      have hp := hpre p (List.mem_cons_self p ps)
      rw [List.cons_append]
      simp only [getPayloadFromStore, hp]
      exact ih2 (fun f hf => hpre f (List.mem_cons_of_mem p hf))

/-- C8 witness: the amended theorem applied to the one-entry sample store
with the exact-case request header, and to a template carrying an empty
value slice for a key the request holds, which panics. -/
theorem claimC8_witness :
    getPayloadFromStore sampleTemplateStore [("X-Thing", ["v"])] =
      some (Except.ok sampleResponse) ∧
    headerMatch [("X-Thing", [])] [("X-Thing", ["v"])] = none :=
  ⟨(claimC8_header_match_case_sensitive [("X-Thing", ["v"])] [("X-Thing", ["v"])]).2.2
      []
      { RequestTemplate :=
          { Path := "", Method := "", Destination := "", Scheme := "", Query := ""
            Body := "", Headers := [("X-Thing", ["v"])] }
        Response := sampleResponse }
      [] (fun e he => absurd he (List.not_mem_nil e)) rfl,
   (claimC8_header_match_case_sensitive [] [("X-Thing", ["v"])]).2.1
      "X-Thing" [] [] ["v"] rfl (Or.inl rfl)⟩

/-! ## Claim C3 -/

theorem addPair_pairwise (sim : List RequestMatcherResponsePair)
    (pair : RequestMatcherResponsePair)
    (h : sim.Pairwise
      (fun a b => requestMatcherDeepEqual a.RequestMatcher b.RequestMatcher = false)) :
    (addPair sim pair).Pairwise
      (fun a b => requestMatcherDeepEqual a.RequestMatcher b.RequestMatcher = false) := by
  unfold addPair
  by_cases hdup :
      sim.any (fun sp => requestMatcherDeepEqual pair.RequestMatcher sp.RequestMatcher) = true
  · simp only [hdup, if_true]
    exact h
  · have hfalse : sim.any
        (fun sp => requestMatcherDeepEqual pair.RequestMatcher sp.RequestMatcher) = false :=
      Bool.eq_false_iff.mpr (by simpa using hdup)
    have hall := List.any_eq_false.mp hfalse
    simp only [hfalse, Bool.false_eq_true, if_false]
    rw [List.pairwise_append]
    refine ⟨h, by simp, ?_⟩
    intro a ha b hb
    simp only [List.mem_singleton] at hb
    subst hb
    rw [requestMatcherDeepEqual_symm]
    have := hall a ha
    simpa using this

theorem foldl_addPair_pairwise (ps : List RequestMatcherResponsePair) :
    ∀ (sim : List RequestMatcherResponsePair),
      sim.Pairwise
        (fun a b => requestMatcherDeepEqual a.RequestMatcher b.RequestMatcher = false) →
      (ps.foldl addPair sim).Pairwise
        (fun a b => requestMatcherDeepEqual a.RequestMatcher b.RequestMatcher = false) := by
  induction ps with
  | nil => intro sim h; exact h
  | cons p ps ih =>
    intro sim h
    exact ih (addPair sim p) (addPair_pairwise sim p h)

/-- C3: `AddPair` leaves the simulation unchanged when a saved pair's
matcher deep-equals the new pair's, appends the pair at the end
otherwise, and hence any simulation built from the empty one by `AddPair`
has pairwise deep-unequal matchers. -/
theorem claimC3_addPair_skips_duplicates :
    ∀ (sim : List RequestMatcherResponsePair) (pair : RequestMatcherResponsePair),
      ((∃ sp ∈ sim,
          requestMatcherDeepEqual pair.RequestMatcher sp.RequestMatcher = true) →
        addPair sim pair = sim) ∧
      ((∀ sp ∈ sim,
          requestMatcherDeepEqual pair.RequestMatcher sp.RequestMatcher = false) →
        addPair sim pair = sim ++ [pair]) ∧
      (∀ (ps : List RequestMatcherResponsePair),
        (ps.foldl addPair []).Pairwise
          (fun a b => requestMatcherDeepEqual a.RequestMatcher b.RequestMatcher = false)) := by
  intro sim pair
  refine ⟨?_, ?_, ?_⟩
  · intro hdup
    have : sim.any
        (fun sp => requestMatcherDeepEqual pair.RequestMatcher sp.RequestMatcher) = true :=
      List.any_eq_true.mpr hdup
    simp [addPair, this]
  · intro hall
    have : sim.any
        (fun sp => requestMatcherDeepEqual pair.RequestMatcher sp.RequestMatcher) = false :=
      List.any_eq_false.mpr (by intro sp hsp; simp [hall sp hsp])
    simp [addPair, this]
  · intro ps
    exact foldl_addPair_pairwise ps [] (List.Pairwise.nil)

/-- C3 witness: the theorem applied to concrete pairs — a structural
duplicate is skipped, a distinct matcher is appended. -/
theorem claimC3_witness :
    addPair [samplePair] samplePair = [samplePair] ∧
    addPair [samplePair] otherPair = [samplePair, otherPair] :=
  ⟨(claimC3_addPair_skips_duplicates [samplePair] samplePair).1
      ⟨samplePair, by simp, by decide⟩,
   (claimC3_addPair_skips_duplicates [samplePair] otherPair).2.1
      (by intro sp hsp; simp only [List.mem_singleton] at hsp; subst hsp; decide)⟩

/-! ## Claim C2: sequencing lemmas -/

theorem erase_withSeqRequire (m : RequestMatcher) (k : Nat) :
    eraseRequiresState (withSeqRequire m k) = eraseRequiresState m := rfl

theorem seqExpected_length (pair : RequestMatcherResponsePair) (n : Nat) :
    (seqExpected pair n).length = n := by
  simp [seqExpected]

theorem seqExpected_mem (pair : RequestMatcherResponsePair) (n : Nat)
    {sp : RequestMatcherResponsePair} (h : sp ∈ seqExpected pair n) :
    ∃ i, i < n ∧ sp =
      { RequestMatcher := withSeqRequire pair.RequestMatcher (i + 1)
        Response := if i + 2 ≤ n then withSeqTransition pair.Response (i + 2)
          else pair.Response } := by
  simp only [seqExpected, List.mem_map, List.mem_range] at h
  obtain ⟨i, hi, hsp⟩ := h
  exact ⟨i, hi, hsp.symm⟩

theorem isDup_seqExpected (pair : RequestMatcherResponsePair) (n : Nat) :
    ∀ sp ∈ seqExpected pair n,
      requestMatcherDeepEqual (eraseRequiresState pair.RequestMatcher)
        (eraseRequiresState sp.RequestMatcher) = true := by
  intro sp hsp
  obtain ⟨i, _, rfl⟩ := seqExpected_mem pair n hsp
  have h : requestMatcherDeepEqual (eraseRequiresState pair.RequestMatcher)
      (eraseRequiresState (withSeqRequire pair.RequestMatcher (i + 1))) = true := by
    rw [erase_withSeqRequire]
    exact requestMatcherDeepEqual_refl _
  exact h

theorem goItoaNat_beq_empty (k : Nat) : (goItoaNat k == "") = false := by
  have h := goItoaNat_ne_empty k
  simpa using h

theorem seqGet_seqExpected (pair : RequestMatcherResponsePair) (n : Nat) :
    ∀ sp ∈ seqExpected pair n,
      (mapGet (sp.RequestMatcher.RequiresState.getD []) "sequence" == "") = false := by
  intro sp hsp
  obtain ⟨i, _, rfl⟩ := seqExpected_mem pair n hsp
  show (mapGet (((withSeqRequire pair.RequestMatcher (i + 1)).RequiresState).getD [])
    "sequence" == "") = false
  rw [show (withSeqRequire pair.RequestMatcher (i + 1)).RequiresState =
    some [("sequence", goItoaNat (i + 1))] from rfl]
  rw [Option.getD_some, mapGet_singleton]
  exact goItoaNat_beq_empty (i + 1)

theorem seqExpected_unfold_succ (pair : RequestMatcherResponsePair) (n : Nat) :
    seqExpected pair (n + 1) =
      (List.range n).map (fun i =>
        { RequestMatcher := withSeqRequire pair.RequestMatcher (i + 1)
          Response := withSeqTransition pair.Response (i + 2) }) ++
      [{ RequestMatcher := withSeqRequire pair.RequestMatcher (n + 1)
         Response := pair.Response }] := by
  simp only [seqExpected, List.range_succ, List.map_append, List.map_singleton]
  congr 1
  · apply List.map_congr_left
    intro i hi
    rw [List.mem_range] at hi
    rw [if_pos (by omega)]
  · rw [if_neg (by omega)]



theorem addPairInSequence_expected (pair : RequestMatcherResponsePair)
    (hReq : pair.RequestMatcher.RequiresState = none)
    (hTrans : pair.Response.TransitionsState = none)
    (n : Nat) (hn : 1 ≤ n) :
    addPairInSequence (seqExpected pair n) pair [("sequence", "1")] =
      (seqExpected pair (n + 1), [("sequence", "1")]) := by
  unfold addPairInSequence
  simp only []
  rw [List.filter_eq_self.mpr (isDup_seqExpected pair n), seqExpected_length]
  rw [if_pos (by omega : n ≠ 0)]
  rw [List.any_eq_false.mpr (fun sp hsp => by
    simp [seqGet_seqExpected pair n sp hsp])]
  simp only [Bool.false_eq_true, if_false]
  rw [seqExpected_unfold_succ]
  congr 1
  congr 1
  · conv_lhs => rw [seqExpected]
    rw [List.map_map]
    apply List.map_congr_left
    intro i hi
    rw [List.mem_range] at hi
    dsimp only [Function.comp_apply]
    have hdup : requestMatcherDeepEqual (eraseRequiresState pair.RequestMatcher)
        (eraseRequiresState (withSeqRequire pair.RequestMatcher (i + 1))) = true := by
      rw [erase_withSeqRequire]; exact requestMatcherDeepEqual_refl _
    rw [if_pos hdup]
    have hwsr : (withSeqRequire pair.RequestMatcher (i + 1)).RequiresState =
        some [("sequence", goItoaNat (i + 1))] := rfl
    rw [hwsr, stepSeq_seqValue]
    by_cases hc : i + 2 ≤ n
    · simp only [hc, if_true, withSeqRequire, withSeqTransition, Option.getD_some,
        mapSet_singleton]
    · simp only [hc, if_false, hTrans, withSeqRequire, withSeqTransition,
        Option.getD_some, Option.getD_none, mapSet_nil, mapSet_singleton]
  · rw [hReq]
    have hgi : goItoa ((n : Int) + 1) = goItoaNat (n + 1) := by
      rw [show ((n : Int) + 1) = ((n + 1 : Nat) : Int) by push_cast; ring, goItoa_natCast]
    simp only [Option.getD_none, mapSet_nil, hgi]
    rfl

theorem insertPairNTimes_two (pair : RequestMatcherResponsePair)
    (hReq : pair.RequestMatcher.RequiresState = none)
    (hTrans : pair.Response.TransitionsState = none) :
    insertPairNTimes pair 2 = (seqExpected pair 2, [("sequence", "1")]) := by
  have h1 : insertPairNTimes pair 2 =
      addPairInSequence [pair] pair [] := by
    show addPairInSequence (insertPairNTimes pair 1).1 pair (insertPairNTimes pair 1).2 = _
    rfl
  rw [h1]
  unfold addPairInSequence
  simp only []
  have hdup : requestMatcherDeepEqual (eraseRequiresState pair.RequestMatcher)
      (eraseRequiresState pair.RequestMatcher) = true := requestMatcherDeepEqual_refl _
  simp only [List.filter_cons, List.filter_nil, hdup, if_true, List.length_cons,
    List.length_nil, List.map_cons, List.map_nil, List.any_cons, List.any_nil,
    hReq, hTrans, stepSeq_none, Option.getD_none, mapSet_nil, mapGet_nil]
  rw [if_pos (by omega : 0 + 1 ≠ 0)]
  simp [seqExpected, List.range_succ, withSeqRequire, withSeqTransition, hReq, hTrans]
  exact ⟨⟨rfl, rfl⟩, rfl⟩

theorem insertPairNTimes_ge_two (pair : RequestMatcherResponsePair)
    (hReq : pair.RequestMatcher.RequiresState = none)
    (hTrans : pair.Response.TransitionsState = none) :
    ∀ n, 2 ≤ n →
      insertPairNTimes pair n = (seqExpected pair n, [("sequence", "1")]) := by
  intro n
  induction n with
  | zero => omega
  | succ k ih =>
    intro hk1
    rcases Nat.lt_or_ge k 2 with hk | hk
    · have hk2 : k = 1 := by omega
      subst hk2
      exact insertPairNTimes_two pair hReq hTrans
    · have ihk := ih hk
      have hstep : insertPairNTimes pair (k + 1) =
          addPairInSequence (insertPairNTimes pair k).1 pair (insertPairNTimes pair k).2 := rfl
      rw [hstep, ihk]
      exact addPairInSequence_expected pair hReq hTrans k (by omega)

/-- C2 counterexample: inserting one pair via `AddPairInSequence` into an
empty simulation assigns it no `sequence` requires-state at all, and
after two inserts of the same pair the second (last) pair has no
`sequence` transition — the claim's "pair i ... transitioning to
sequence=i+1" fails for i = N. -/
theorem claimC2_counterexample :
    (insertPairNTimes samplePair 1).1.map
        (fun p => (p.RequestMatcher.RequiresState, p.Response.TransitionsState)) =
      [(none, none)] ∧
    (insertPairNTimes samplePair 2).1.map (fun p => p.Response.TransitionsState) =
      [some [("sequence", "2")], none] := ⟨rfl, rfl⟩

/-- C2 (amended): for every pair with nil `requiresState` and nil
`transitionsState` and every N ≥ 2, inserting the pair N times via
`AddPairInSequence` into a fresh simulation yields pairs whose
`sequence` requires-state values are the consecutive decimal strings
1..N (pair i requires `sequence = i`); pairs 1..N-1 transition to
`sequence = i + 1` while the final pair has no transition; the state map
holds `sequence = "1"`. For a single insert (N = 1) no sequence state is
assigned. -/
theorem claimC2_sequencing :
    ∀ (pair : RequestMatcherResponsePair),
      pair.RequestMatcher.RequiresState = none →
      pair.Response.TransitionsState = none →
      insertPairNTimes pair 1 = ([pair], []) ∧
      ∀ n, 2 ≤ n →
        insertPairNTimes pair n = (seqExpected pair n, [("sequence", "1")]) := by
  intro pair hReq hTrans
  exact ⟨rfl, insertPairNTimes_ge_two pair hReq hTrans⟩

/-- C2 witness: the amended theorem applied to the sample pair at N = 3:
three sequenced inserts produce requires-states 1, 2, 3 with transitions
2 and 3 on the first two pairs. -/
theorem claimC2_witness :
    insertPairNTimes samplePair 3 = (seqExpected samplePair 3, [("sequence", "1")]) :=
  (claimC2_sequencing samplePair rfl rfl).2 3 (by omega)

end Hoverhover
